import Mathlib

/-!
Verification development for the MeSH-Missing-Wiki-Finder repository.

The Python module `match_wiki_new.py` resolves free-text keywords against
Wikidata: per-keyword candidate search, label fallback, fuzzy scoring,
taxonomic enrichment with retry/backoff, link resolution, and a resumable
driver that appends result records to a matched or an unmatched CSV
partition.  Below, each of those pieces is embedded shallowly: network
calls are abstracted as oracle functions giving the observable outcome of
each call (the Python functions catch their own transport errors
internally, so their outcomes are total values), machine-level sleeping is
tracked as a running total measured in tenths of a second, and the two
output files are explicit lists of rows together with a flushed-row
counter.
-/

/-! ### Fuzzy scorer

Embeds the score computation inlined in `process_keywords`
(`match_wiki_new.py`, lines 214-216).  `token_sort_ratio` comes from the
external rapidfuzz library, so it is abstracted as a function
`fuzz : String → String → Nat`; the library guarantees results in
[0, 100], which theorems take as a hypothesis.  Python:

    score_label = token_sort_ratio(keyword, label) if label else 0
    scores_aliases = [token_sort_ratio(keyword, alias) for alias in aliases]
    best_score = max([score_label] + scores_aliases) if (label or aliases) else 0
-/

def best_score (fuzz : String → String → Nat) (keyword label : String)
    (aliases : List String) : Nat :=
  let score_label := if label ≠ "" then fuzz keyword label else 0
  let scores_aliases := aliases.map (fun al => fuzz keyword al)
  if label ≠ "" ∨ aliases ≠ [] then scores_aliases.foldl max score_label else 0

/-- Written from the words of the specification, for comparison with
`best_score` which is written from the code: the maximum of the
similarity of the keyword against the label (only when the label is
non-empty) and against each alias, with the maximum of no values being
0. -/
def best_score_spec (fuzz : String → String → Nat) (keyword label : String)
    (aliases : List String) : Nat :=
  ((if label ≠ "" then [fuzz keyword label] else []) ++
    aliases.map (fun al => fuzz keyword al)).foldl max 0

/-! ### Taxonomy Enricher

Embeds `get_instances_and_subclasses` (`match_wiki_new.py`, lines
63-106).  Each attempt at the SPARQL endpoint has one of three observable
outcomes: an HTTP 429 response, any other failure (transport error,
`raise_for_status`, or a parse error inside the `try`), or a successful
response carrying a list of bindings.  The outcome of attempt number `a`
is given by the oracle `out a`.  Sleeps are accumulated in tenths of a
second: the fixed 10 s wait after a 429 is 100, the exponential backoff
`2^attempt` seconds is `10 * 2^attempt`, and the 0.5 s self-throttle
before a successful return is 5. -/

/-- One row of the SPARQL result: each of the four variables is optional
(an absent key in the binding dictionary is `none`).  `p31` and `p279`
hold the full entity URI, of which the code keeps the last `/`-separated
component. -/
structure Binding where
  p31 : Option String
  p31Label : Option String
  p279 : Option String
  p279Label : Option String
deriving DecidableEq

inductive SparqlOutcome where
  | rateLimited
  | failure
  | success (bindings : List Binding)
deriving DecidableEq

/-- Python `value.split("/")[-1]`.  `String.splitOn` never returns an
empty list, so the default is unreachable. -/
def lastPathComponent (s : String) : String :=
  ((s.splitOn "/").reverse).headD s

/-- Python `sorted({...})`: the distinct elements in ascending order. -/
def sortedDedup (l : List String) : List String :=
  l.dedup.insertionSort (fun a b => a ≤ b)

/-- Result quadruple of the enricher. -/
abbrev Lists4 := List String × List String × List String × List String

/-- Parsing step of a successful SPARQL response
(`match_wiki_new.py`, lines 91-94). -/
def parseBindings (bs : List Binding) : Lists4 :=
  (sortedDedup (bs.filterMap (fun b => b.p31.map lastPathComponent)),
   sortedDedup (bs.filterMap (fun b => b.p31Label)),
   sortedDedup (bs.filterMap (fun b => b.p279.map lastPathComponent)),
   sortedDedup (bs.filterMap (fun b => b.p279Label)))

def max_retries : Nat := 3

/-- The retry loop `for attempt in range(max_retries)`, with `attempt`
the current attempt number and `remaining` how many loop iterations are
left (`attempt + remaining = max_retries` at every call from
`get_instances_and_subclasses`).  Returns the result quadruple and the
total sleep in tenths of a second.  A 429 sleeps 10 s and `continue`s
(skipping the backoff); any other failure sleeps `2^attempt` s except
after the last attempt; success sleeps 0.5 s and returns. -/
def sparqlAttempts (out : Nat → SparqlOutcome) :
    (attempt : Nat) → (remaining : Nat) → Lists4 × Nat
  | _, 0 => (([], [], [], []), 0)
  | a, n + 1 =>
    match out a with
    | SparqlOutcome.rateLimited =>
        let r := sparqlAttempts out (a + 1) n
        (r.1, 100 + r.2)
    | SparqlOutcome.success bs => (parseBindings bs, 5)
    | SparqlOutcome.failure =>
        let r := sparqlAttempts out (a + 1) n
        (r.1, (if a < max_retries - 1 then 10 * 2 ^ a else 0) + r.2)

/-- `get_instances_and_subclasses`: runs the attempt loop from attempt 0;
falls through to four empty lists when no attempt succeeds.  The Lean
function is total, mirroring the Python function, which catches every
exception inside the loop and never raises to its caller. -/
def get_instances_and_subclasses (out : Nat → SparqlOutcome) : Lists4 × Nat :=
  sparqlAttempts out 0 max_retries

/-! ### Link Resolver

Embeds `get_wikipedia_link` (`match_wiki_new.py`, lines 43-61).  The
parsed JSON response is modelled with explicit optional fields; the
Python dictionary lookups `r.json().get("entities", {})`,
`.get(qid, {})` and `.get("sitelinks", {})` default to empty
dictionaries, which the association-list model reproduces with `getD`.
The crucial detail is line 57, `sitelinks[site_key].get("url")`: this
`get` has no default, so a present site key with an absent `url` field
yields the Python value `None`.  Python string results are therefore
modelled as `Option String`, with `none` standing for `None` and
`some s` for the string `s`. -/

structure SitelinkEntry where
  url : Option String
deriving DecidableEq

structure EntityEntry where
  sitelinks : List (String × SitelinkEntry)
deriving DecidableEq

structure WbResponse where
  entities : List (String × EntityEntry)
deriving DecidableEq

/-- `get_wikipedia_link(qid, language)`: `fetch` is the outcome of the
request plus JSON decoding (`Except.error` when anything inside the
`try` raises).  Returns `some ""` on failure or when the site key is
absent, the `url` field (itself optional) when the site key is
present. -/
def get_wikipedia_link (fetch : Except Unit WbResponse)
    (qid language : String) : Option String :=
  match fetch with
  | Except.error _ => some ""
  | Except.ok resp =>
    let sitelinks := ((resp.entities.lookup qid).getD { sitelinks := [] }).sitelinks
    match sitelinks.lookup (language ++ "wiki") with
    | some entry => entry.url
    | none => some ""

/-- Python `s.strip()`: drop whitespace characters from both ends.
Written as structural recursion over the character list so that it
evaluates inside the kernel. -/
def pyStrip (s : String) : String :=
  String.mk (((s.toList.dropWhile Char.isWhitespace).reverse.dropWhile
    Char.isWhitespace).reverse)

/-! ### Bootstrap: Processed-Keyword Set and header decision

Embeds `get_processed_keywords` (`match_wiki_new.py`, lines 108-124) and
`should_write_header` (lines 126-134).  A CSV file on disk is a list of
rows (each a list of string fields); an absent file is `none`.  For the
header decision the file is modelled at the line level, because the
emptiness test is on the raw text (`len(f.read().strip()) == 0`) and the
`except` branch of `should_write_header` — reached when the file exists
but opening or decoding it raises — also returns `True`. -/

/-- The keyword of each non-empty row: Python
`if row: processed.add(row[0].strip())`. -/
def rowKeywords (rows : List (List String)) : List String :=
  rows.filterMap (fun row => row.head?.map pyStrip)

/-- Contribution of one partition file: `next(reader, None)` drops the
first row unconditionally before the keywords are collected.  (On a read
error midway the Python loop keeps the keywords already added; such a
read yields the prefix of the file it managed to parse, so `some rows`
stands for the rows actually obtained.) -/
def processedFromFile (file : Option (List (List String))) : List String :=
  match file with
  | none => []
  | some rows => rowKeywords (rows.drop 1)

/-- `get_processed_keywords(matched_csv, unmatched_csv)`: union of both
partition files.  Membership in this list models membership in the
Python set. -/
def get_processed_keywords (matched unmatched : Option (List (List String))) :
    List String :=
  processedFromFile matched ++ processedFromFile unmatched

/-- State of a partition file at bootstrap, at the line level:
`unreadable` means `os.path.exists` is true but opening or reading the
file raises (for example a decoding error), taking the bare `except`
branch. -/
inductive FileState where
  | absent
  | unreadable (lines : List String)
  | readable (lines : List String)
deriving DecidableEq

def linesOf : FileState → List String
  | FileState.absent => []
  | FileState.unreadable ls => ls
  | FileState.readable ls => ls

/-- `len(f.read().strip()) == 0` on the joined lines: true exactly when
every line is whitespace-only. -/
def stripEmpty (lines : List String) : Bool :=
  lines.all (fun l => pyStrip l = "")

/-- `should_write_header(csv_file)`: `True` when the file is absent,
`True` when reading raises, otherwise the emptiness test. -/
def should_write_header : FileState → Bool
  | FileState.absent => true
  | FileState.unreadable _ => true
  | FileState.readable ls => stripEmpty ls

/-- The header row written by `process_keywords` (lines 154-170), as the
single CSV line it occupies in the file. -/
def headerRow : String :=
  "Keyword,Wikidata_QID,Wikidata_Label,Match_Score,Instances_QIDs,Instances_Labels,Subclasses_QIDs,Subclasses_Labels,Wikipedia_English_Link"

def countHeader (lines : List String) : Nat :=
  lines.count headerRow

/-- One run as seen by a single partition file: the file is opened in
append mode, the header is appended first when `should_write_header`
said so at bootstrap, then the data lines of the run. -/
def runHeader (f : FileState) (data : List String) : List String :=
  linesOf f ++ (if should_write_header f then [headerRow] else []) ++ data

/-- A sequence of runs against the same partition file, each appending
its data lines; after a run the file holds the lines the run left
behind. -/
def runSeq : FileState → List (List String) → List String
  | f, [] => linesOf f
  | f, d :: ds => runSeq (FileState.readable (runHeader f d)) ds

/-! ### Resumable Pipeline Driver

Embeds the keyword loop of `process_keywords` (`match_wiki_new.py`,
lines 172-253).  Network interactions are bundled in a `NetEnv` of
oracles giving the outcome of each call, which is faithful because every
one of the called helpers catches its own exceptions and returns a
value: `search_wikidata_entities` returns the candidate list (empty on
any error), the label-fallback block (lines 198-211) leaves a string
label (empty on any error), `get_instances_and_subclasses` returns a
quadruple, and `get_wikipedia_link` returns without raising.

The body of the per-keyword `try` (lines 187-247) can itself raise —
realistically from the scoring of malformed candidate data, or from a
`writerow` in the write loop.  The oracle `failAt` says whether the
processing of a keyword raises and where.  Every statement before the
write block mutates only local variables, so any failure before the
first `writerow` leaves the driver state unchanged (`beforeWrite`).  A
failure while writing record number `k + 1` of the selected partition
(`duringWrite k`, presuming `k` is less than the number of records to
write) leaves the first `k` records appended to the file object; they
are not flushed by the handler (the `flush` call is skipped), but the
`with` block closes both files when the run completes, so appended rows
persist in the file.

The Processed-Keyword Set is computed once before the loop (line 138)
and never mutated afterwards — `processed.add` occurs only inside
`get_processed_keywords` — so the driver model takes it as a fixed
parameter. -/

/-- One entry of the `wbsearchentities` result, after the defaults of
`ent.get("label", "")`, `ent.get("id", "")` and `ent.get("aliases", [])`
are applied. -/
structure SearchEntity where
  id : String
  label : String
  aliases : List String
deriving DecidableEq

/-- The result row assembled at lines 221-229, with the multi-valued
taxonomy fields already joined by `"; "`. -/
structure ResultRow where
  keyword : String
  qid : String
  label : String
  score : Nat
  instQids : String
  instLabels : String
  subQids : String
  subLabels : String
  link : String
deriving DecidableEq

inductive FailPoint where
  | beforeWrite
  | duringWrite (k : Nat)
deriving DecidableEq

structure NetEnv where
  search : String → List SearchEntity
  fallbackLabel : String → String
  fuzz : String → String → Nat
  enrich : String → Lists4
  link : String → String
  failAt : String → Option FailPoint

/-- A partition file during the run: the rows appended so far (in
order), and how many of them have been flushed to durable storage. -/
structure OutPartition where
  rows : List ResultRow
  flushed : Nat
deriving DecidableEq

def appendRows (p : OutPartition) (rs : List ResultRow) : OutPartition :=
  { p with rows := p.rows ++ rs }

def flushPart (p : OutPartition) : OutPartition :=
  { p with flushed := p.rows.length }

structure DriverState where
  matched : OutPartition
  unmatched : OutPartition
  processed_count : Nat
  skipped_count : Nat
deriving DecidableEq

def initState : DriverState :=
  { matched := { rows := [], flushed := 0 },
    unmatched := { rows := [], flushed := 0 },
    processed_count := 0,
    skipped_count := 0 }

/-- Per-candidate processing (lines 192-229): label fallback when the
label is empty and the id non-empty, scoring, enrichment, link
resolution, and assembly of the result row. -/
def processCandidate (env : NetEnv) (keyword : String)
    (ent : SearchEntity) : ResultRow :=
  let qid := ent.id
  let label := if ent.label = "" ∧ qid ≠ "" then env.fallbackLabel qid else ent.label
  let e := env.enrich qid
  { keyword := keyword,
    qid := qid,
    label := label,
    score := best_score env.fuzz keyword label ent.aliases,
    instQids := String.intercalate "; " e.1,
    instLabels := String.intercalate "; " e.2.1,
    subQids := String.intercalate "; " e.2.2.1,
    subLabels := String.intercalate "; " e.2.2.2,
    link := env.link qid }

/-- The result rows of one keyword, in candidate order. -/
def resolveRows (env : NetEnv) (keyword : String) : List ResultRow :=
  (env.search keyword).map (processCandidate env keyword)

/-- The body of the per-keyword `try` together with its
`except Exception` handler (lines 187-251).  On success: classify each
row by `best_score >= min_score`, then `if matched_items: ... elif
unmatched_items: ...`, appending and flushing the selected partition,
and increment `processed_count`.  On a failure the handler only logs, so
the state keeps exactly the effects performed before the raise. -/
def keywordStep (env : NetEnv) (min_score : Nat) (st : DriverState)
    (keyword : String) : DriverState :=
  match env.failAt keyword with
  | some FailPoint.beforeWrite => st
  | some (FailPoint.duringWrite k) =>
    let rows := resolveRows env keyword
    let m := rows.filter (fun r => min_score ≤ r.score)
    let u := rows.filter (fun r => r.score < min_score)
    if m ≠ [] then { st with matched := appendRows st.matched (m.take k) }
    else if u ≠ [] then { st with unmatched := appendRows st.unmatched (u.take k) }
    else st
  | none =>
    let rows := resolveRows env keyword
    let m := rows.filter (fun r => min_score ≤ r.score)
    let u := rows.filter (fun r => r.score < min_score)
    let st1 :=
      if m ≠ [] then { st with matched := flushPart (appendRows st.matched m) }
      else if u ≠ [] then { st with unmatched := flushPart (appendRows st.unmatched u) }
      else st
    { st1 with processed_count := st1.processed_count + 1 }

/-- One iteration of `for row in reader` (lines 175-251): empty rows and
rows with a whitespace-only first field are passed over by a bare
`continue` (no counter is touched); rows whose trimmed keyword is in the
Processed-Keyword Set increment `skipped_count`; every other row is
processed. -/
def rowStep (env : NetEnv) (min_score : Nat) (processed_keywords : List String)
    (st : DriverState) (row : List String) : DriverState :=
  match row with
  | [] => st
  | first :: _ =>
    let keyword := pyStrip first
    if keyword = "" then st
    else if keyword ∈ processed_keywords then
      { st with skipped_count := st.skipped_count + 1 }
    else keywordStep env min_score st keyword

/-- The keyword loop of `process_keywords` over the whole input, from
fresh counters and empty partitions. -/
def process_keywords (env : NetEnv) (min_score : Nat)
    (processed_keywords : List String) (input : List (List String)) :
    DriverState :=
  input.foldl (rowStep env min_score processed_keywords) initState

/-! ### Concrete instances used by witnesses and counterexamples -/

/-- An environment whose searches return no candidates and in which no
keyword fails. -/
def envTrivial : NetEnv :=
  { search := fun _ => [],
    fallbackLabel := fun _ => "",
    fuzz := fun _ _ => 0,
    enrich := fun _ => ([], [], [], []),
    link := fun _ => "",
    failAt := fun _ => none }

def entPython : SearchEntity :=
  { id := "Q28865", label := "Python", aliases := ["Python (programming language)"] }

/-- An environment with one perfectly matching candidate. -/
def envMatch : NetEnv :=
  { search := fun _ => [entPython],
    fallbackLabel := fun _ => "",
    fuzz := fun k s => if k = s then 100 else 50,
    enrich := fun _ => ([], [], [], []),
    link := fun _ => "",
    failAt := fun _ => none }

/-- An environment with two matching candidates in which every keyword
raises while the second record is being written. -/
def envFail : NetEnv :=
  { search := fun _ => [{ id := "QA", label := "k", aliases := [] },
                        { id := "QB", label := "k", aliases := [] }],
    fallbackLabel := fun _ => "",
    fuzz := fun _ _ => 100,
    enrich := fun _ => ([], [], [], []),
    link := fun _ => "",
    failAt := fun _ => some (FailPoint.duringWrite 1) }

/-- An attempt oracle answering 429 twice, then success with no
bindings. -/
def outTwoRateLimits : Nat → SparqlOutcome :=
  fun a =>
    match a with
    | 0 => SparqlOutcome.rateLimited
    | 1 => SparqlOutcome.rateLimited
    | _ => SparqlOutcome.success []

/-- A well-formed entity response whose `enwiki` site link carries no
`url` field. -/
def respNoUrl : WbResponse :=
  { entities := [("Q42", { sitelinks := [("enwiki", { url := none })] })] }

/-! ## Theorems -/

/-- Helper: a `foldl max` stays below a bound that the seed and every
element respect. -/
theorem foldlMax_le {n : Nat} :
    ∀ (l : List Nat) (a : Nat), a ≤ n → (∀ x ∈ l, x ≤ n) → l.foldl max a ≤ n := by
  intro l
  induction l with
  | nil => intro a ha _; simpa using ha
  | cons x xs ih =>
    intro a ha hx
    simp only [List.foldl_cons]
    exact ih (max a x) (max_le ha (hx x (by simp)))
      (fun y hy => hx y (by simp [hy]))

/-- C5: for every keyword and candidate, the match score is in [0, 100]
(given that the external similarity function is), equals the maximum of
the similarity against the label — counted only when the label is
non-empty — and against each alias, and is 0 when the label is empty and
the alias list is empty.  The range lower bound is inherent in the `Nat`
codomain. -/
theorem match_score_range_and_max (fuzz : String → String → Nat)
    (keyword label : String) (aliases : List String)
    (h : ∀ s t, fuzz s t ≤ 100) :
    best_score fuzz keyword label aliases ≤ 100 ∧
    best_score fuzz keyword label aliases = best_score_spec fuzz keyword label aliases ∧
    (label = "" → aliases = [] → best_score fuzz keyword label aliases = 0) := by
  have hmap : ∀ x ∈ aliases.map (fun al => fuzz keyword al), x ≤ 100 := by
    intro x hx
    rcases List.mem_map.mp hx with ⟨s, _, rfl⟩
    exact h keyword s
  refine ⟨?_, ?_, ?_⟩
  · by_cases hl : label = ""
    · by_cases ha : aliases = []
      · simp [best_score, hl, ha]
      · have hb : best_score fuzz keyword label aliases =
            (aliases.map (fun al => fuzz keyword al)).foldl max 0 := by
          simp [best_score, hl, ha]
        rw [hb]
        exact foldlMax_le _ _ (by omega) hmap
    · have hb : best_score fuzz keyword label aliases =
          (aliases.map (fun al => fuzz keyword al)).foldl max (fuzz keyword label) := by
        simp [best_score, hl]
      rw [hb]
      exact foldlMax_le _ _ (h keyword label) hmap
  · by_cases hl : label = ""
    · by_cases ha : aliases = []
      · simp [best_score, best_score_spec, hl, ha]
      · simp [best_score, best_score_spec, hl, ha]
    · simp [best_score, best_score_spec, hl, Nat.zero_max]
  · intro hl ha
    simp [best_score, hl, ha]

/-- C5 witness: the bounds and the formula at a concrete similarity
function and candidate. -/
theorem match_score_witness :
    (∀ s t : String, (fun (_ _ : String) => 100) s t ≤ 100) ∧
    best_score (fun _ _ => 100) "Python" "Python" ["Py"] ≤ 100 ∧
    best_score (fun _ _ => 100) "Python" "Python" ["Py"] =
      best_score_spec (fun _ _ => 100) "Python" "Python" ["Py"] :=
  ⟨fun _ _ => le_refl 100,
   (match_score_range_and_max (fun _ _ => 100) "Python" "Python" ["Py"]
      (fun _ _ => le_refl 100)).1,
   (match_score_range_and_max (fun _ _ => 100) "Python" "Python" ["Py"]
      (fun _ _ => le_refl 100)).2.1⟩

/-- Helper: the attempt loop started at attempt `a` with `n` iterations
left consults the oracle only on attempts `a, …, a + n - 1`. -/
theorem sparqlAttempts_congr :
    ∀ (n a : Nat) (out outB : Nat → SparqlOutcome),
    (∀ i, a ≤ i → i < a + n → out i = outB i) →
    sparqlAttempts out a n = sparqlAttempts outB a n := by
  intro n
  induction n with
  | zero => intro a out outB _; rfl
  | succ n ih =>
    intro a out outB h
    have ha : out a = outB a := h a (Nat.le_refl a) (by omega)
    have hrec : sparqlAttempts out (a + 1) n = sparqlAttempts outB (a + 1) n :=
      ih (a + 1) out outB (fun i h1 h2 => h i (by omega) (by omega))
    simp only [sparqlAttempts, ha, hrec]

/-- Helper: when no consulted attempt succeeds, the loop falls through
to the four empty lists. -/
theorem sparqlAttempts_no_success :
    ∀ (n a : Nat) (out : Nat → SparqlOutcome),
    (∀ i, a ≤ i → i < a + n → ∀ bs, out i ≠ SparqlOutcome.success bs) →
    (sparqlAttempts out a n).1 = ([], [], [], []) := by
  intro n
  induction n with
  | zero => intro a out _; rfl
  | succ n ih =>
    intro a out h
    have hrec := ih (a + 1) out (fun i h1 h2 => h i (by omega) (by omega))
    rcases hout : out a with _ | _ | bs
    · simp [sparqlAttempts, hout, hrec]
    · simp [sparqlAttempts, hout, hrec]
    · exact absurd hout (h a (Nat.le_refl a) (by omega) bs)

/-- C3: the Taxonomy Enricher makes at most `max_retries = 3` attempts —
its result depends only on the outcomes of attempts 0, 1 and 2 — and
when none of those attempts succeeds it returns four empty sequences.
No exception reaches the caller: the embedding is a total function, as
is the Python original, whose loop body catches every exception. -/
theorem taxonomy_retry_cap_and_nonfatal :
    (∀ out outB : Nat → SparqlOutcome,
      (∀ a, a < max_retries → out a = outB a) →
      get_instances_and_subclasses out = get_instances_and_subclasses outB) ∧
    (∀ out : Nat → SparqlOutcome,
      (∀ a, a < max_retries → ∀ bs, out a ≠ SparqlOutcome.success bs) →
      (get_instances_and_subclasses out).1 = ([], [], [], [])) := by
  constructor
  · intro out outB h
    exact sparqlAttempts_congr max_retries 0 out outB
      (fun i h1 h2 => h i (by omega))
  · intro out h
    exact sparqlAttempts_no_success max_retries 0 out
      (fun i h1 h2 bs => h i (by omega) bs)

/-- C3 witness: an oracle all of whose attempts fail yields the four
empty sequences. -/
theorem taxonomy_retry_witness :
    (get_instances_and_subclasses (fun _ => SparqlOutcome.failure)).1 =
      ([], [], [], []) :=
  taxonomy_retry_cap_and_nonfatal.2 (fun _ => SparqlOutcome.failure)
    (fun _ _ bs => by simp)

/-- C8: when the endpoint answers 429 on attempts 0 and 1 and succeeds
on attempt 2, the enricher returns exactly the parsed quadruple of the
successful response, and the total sleep is 205 tenths of a second —
two fixed 10 s waits for the two 429 responses (not the `2^attempt`
backoff reserved for other failures) plus the 0.5 s self-throttle after
success — hence at least the 20 s the specification demands. -/
theorem taxonomy_rate_limit_waits (out : Nat → SparqlOutcome) (bs : List Binding)
    (h0 : out 0 = SparqlOutcome.rateLimited)
    (h1 : out 1 = SparqlOutcome.rateLimited)
    (h2 : out 2 = SparqlOutcome.success bs) :
    get_instances_and_subclasses out = (parseBindings bs, 205) ∧
    200 ≤ (get_instances_and_subclasses out).2 := by
  have hmain : get_instances_and_subclasses out = (parseBindings bs, 205) := by
    show sparqlAttempts out 0 max_retries = (parseBindings bs, 205)
    show sparqlAttempts out 0 3 = (parseBindings bs, 205)
    show sparqlAttempts out 0 (2 + 1) = (parseBindings bs, 205)
    rw [sparqlAttempts, h0]
    show Prod.mk (sparqlAttempts out 1 (1 + 1)).1
      (100 + (sparqlAttempts out 1 (1 + 1)).2) = (parseBindings bs, 205)
    rw [sparqlAttempts, h1]
    show Prod.mk (sparqlAttempts out 2 (0 + 1)).1
      (100 + (100 + (sparqlAttempts out 2 (0 + 1)).2)) = (parseBindings bs, 205)
    rw [sparqlAttempts, h2]
    norm_num
  exact ⟨hmain, by rw [hmain]; norm_num⟩

/-- C8 witness: the concrete two-429s-then-success oracle. -/
theorem taxonomy_rate_limit_witness :
    get_instances_and_subclasses outTwoRateLimits =
      ((([], [], [], []) : Lists4), 205) ∧
    200 ≤ (get_instances_and_subclasses outTwoRateLimits).2 := by
  simpa using taxonomy_rate_limit_waits outTwoRateLimits [] rfl rfl rfl

/-- C1: for a keyword whose processing does not raise, the write policy:
when the matched accumulator is non-empty, exactly the matched records
are appended to the matched partition and flushed, the unmatched
partition is untouched, and the processed count is incremented; only
when the matched accumulator is empty and the unmatched one non-empty
are the unmatched records appended and flushed.  A keyword yielding both
matched and unmatched candidates therefore persists only its matched
records. -/
theorem write_policy_matched_wins (env : NetEnv) (ms : Nat) (st : DriverState)
    (kw : String) (h : env.failAt kw = none) :
    ((resolveRows env kw).filter (fun r => ms ≤ r.score) ≠ [] →
      keywordStep env ms st kw =
        { st with
            matched := flushPart (appendRows st.matched
              ((resolveRows env kw).filter (fun r => ms ≤ r.score))),
            processed_count := st.processed_count + 1 }) ∧
    ((resolveRows env kw).filter (fun r => ms ≤ r.score) = [] →
      (resolveRows env kw).filter (fun r => r.score < ms) ≠ [] →
      keywordStep env ms st kw =
        { st with
            unmatched := flushPart (appendRows st.unmatched
              ((resolveRows env kw).filter (fun r => r.score < ms))),
            processed_count := st.processed_count + 1 }) := by
  constructor
  · intro hm
    simp [keywordStep, h, hm]
  · intro hm hu
    simp [keywordStep, h, hm, hu]

/-- C1 witness: one candidate scoring 100 against threshold 80 is
appended to the matched partition and flushed. -/
theorem write_policy_witness :
    keywordStep envMatch 80 initState "Python" =
      { initState with
          matched := flushPart (appendRows initState.matched
            ((resolveRows envMatch "Python").filter (fun r => 80 ≤ r.score))),
          processed_count := initState.processed_count + 1 } :=
  (write_policy_matched_wins envMatch 80 initState "Python" rfl).1 (by decide)

/-- C6: a keyword whose search returns no candidates and whose
processing does not raise writes nothing to either partition and still
increments the processed count.  The Processed-Keyword Set cannot gain
the keyword: the code computes the set before the loop and never adds to
it afterwards, which the model reflects by taking the set as a fixed
parameter of `rowStep`. -/
theorem no_candidates_still_counts (env : NetEnv) (ms : Nat) (st : DriverState)
    (kw : String) (hs : env.search kw = []) (hf : env.failAt kw = none) :
    keywordStep env ms st kw = { st with processed_count := st.processed_count + 1 } := by
  simp [keywordStep, hf, resolveRows, hs]

/-- C6 witness: the no-candidate scenario at a concrete keyword. -/
theorem no_candidates_witness :
    keywordStep envTrivial 80 initState "xyzzy123" =
      { initState with processed_count := initState.processed_count + 1 } :=
  no_candidates_still_counts envTrivial 80 initState "xyzzy123" rfl rfl

/-- C4 (amended): a row whose trimmed first field is empty, like an
empty row, is passed over by a bare `continue` — the skipped count is
NOT incremented; a row whose trimmed keyword is already in the
Processed-Keyword Set is skipped with the skipped count incremented.  In
both cases the resulting state is written without reference to `env`,
so a skipped row consults no network oracle and writes no record. -/
theorem skip_rows_behavior (env : NetEnv) (ms : Nat) (pset : List String)
    (st : DriverState) (first : String) (rest : List String) :
    (pyStrip first = "" → rowStep env ms pset st (first :: rest) = st) ∧
    (pyStrip first ≠ "" → pyStrip first ∈ pset →
      rowStep env ms pset st (first :: rest) =
        { st with skipped_count := st.skipped_count + 1 }) ∧
    rowStep env ms pset st [] = st := by
  refine ⟨?_, ?_, rfl⟩
  · intro h
    simp [rowStep, h]
  · intro h hm
    simp [rowStep, h, hm]

/-- C4 witness: a row already in the Processed-Keyword Set increments
the skipped count and changes nothing else. -/
theorem skip_rows_witness :
    rowStep envTrivial 80 ["done"] initState ["done"] =
      { initState with skipped_count := initState.skipped_count + 1 } :=
  (skip_rows_behavior envTrivial 80 ["done"] initState "done" []).2.1
    (by decide) (by decide)

/-- C4 counterexample: the claim demands that a whitespace-only keyword
row increment the skipped count, but the code falls through `if not
keyword: continue` without touching any counter — after a run over the
single row `[" "]` the skipped count is still 0, not 1. -/
theorem skip_rows_counterexample :
    process_keywords envTrivial 80 [] [[" "]] = initState ∧
    initState.skipped_count = 0 := by
  constructor
  · decide
  · rfl

/-- C2 (amended): a per-keyword exception is caught and processing
continues — the model stays a total fold over the input — and the failed
keyword never increments the processed count, never flushes either
partition, and is never added to the Processed-Keyword Set (the set is
fixed before the loop and never extended).  An exception raised before
the write phase leaves the state unchanged; an exception raised during
the write phase leaves the records already appended — they persist when
the files are closed at the end of the run — and appends to at most one
partition. -/
theorem per_keyword_failure_isolated (env : NetEnv) (ms : Nat) (st : DriverState)
    (kw : String) (fp : FailPoint) (h : env.failAt kw = some fp) :
    (keywordStep env ms st kw).processed_count = st.processed_count ∧
    (keywordStep env ms st kw).skipped_count = st.skipped_count ∧
    (keywordStep env ms st kw).matched.flushed = st.matched.flushed ∧
    (keywordStep env ms st kw).unmatched.flushed = st.unmatched.flushed ∧
    (fp = FailPoint.beforeWrite → keywordStep env ms st kw = st) ∧
    (∃ em eu,
      (keywordStep env ms st kw).matched.rows = st.matched.rows ++ em ∧
      (keywordStep env ms st kw).unmatched.rows = st.unmatched.rows ++ eu ∧
      (em = [] ∨ eu = [])) := by
  cases fp with
  | beforeWrite =>
    have hk : keywordStep env ms st kw = st := by simp [keywordStep, h]
    rw [hk]
    exact ⟨rfl, rfl, rfl, rfl, fun _ => rfl, [], [], by simp, by simp, Or.inl rfl⟩
  | duringWrite k =>
    simp only [keywordStep, h]
    split_ifs with h1 h2
    · exact ⟨rfl, rfl, rfl, rfl, by intro hc; simp at hc,
        ⟨_, [], rfl, by simp, Or.inr rfl⟩⟩
    · exact ⟨rfl, rfl, rfl, rfl, by intro hc; simp at hc,
        ⟨[], _, by simp, rfl, Or.inl rfl⟩⟩
    · exact ⟨rfl, rfl, rfl, rfl, by intro hc; simp at hc,
        ⟨[], [], by simp, by simp, Or.inl rfl⟩⟩

/-- C2 witness: a keyword failing before the write phase leaves the
processed count untouched. -/
theorem per_keyword_failure_witness :
    (keywordStep
      { envTrivial with failAt := fun _ => some FailPoint.beforeWrite }
      80 initState "k").processed_count = initState.processed_count :=
  (per_keyword_failure_isolated
    { envTrivial with failAt := fun _ => some FailPoint.beforeWrite }
    80 initState "k" FailPoint.beforeWrite rfl).1

/-- C2 counterexample: the claim says that on any exception while
resolving a keyword — writing included — no record for that keyword is
written to either partition.  In `envFail` the keyword "k" yields two
matched candidates and the exception strikes while the second record is
being written: the first record has already been appended to the matched
partition (and persists when the file is closed at the end of the run),
so a record for the failed keyword is in the partition. -/
theorem per_keyword_failure_counterexample :
    envFail.failAt "k" = some (FailPoint.duringWrite 1) ∧
    (keywordStep envFail 80 initState "k").matched.rows.length = 1 := by
  exact ⟨rfl, by decide⟩

/-- Helper: a list of whitespace-only lines cannot contain the header
row. -/
theorem stripEmpty_no_header (ls : List String) (h : stripEmpty ls = true) :
    headerRow ∉ ls := by
  intro hmem
  have hall := List.all_eq_true.mp h headerRow hmem
  have : pyStrip headerRow = "" := by exact_mod_cast of_decide_eq_true hall
  exact absurd this (by decide)

/-- Helper: one run appends at most one header, and none when the file
already holds visible content. -/
theorem count_runHeader_le_one (f : FileState) (d : List String)
    (hd : headerRow ∉ d) (hf : ∀ ls, f ≠ FileState.unreadable ls)
    (hc : countHeader (linesOf f) ≤ 1) :
    countHeader (runHeader f d) ≤ 1 := by
  have hd0 : d.count headerRow = 0 := List.count_eq_zero.mpr hd
  cases f with
  | absent =>
    simp [runHeader, countHeader, should_write_header, linesOf,
      List.count_append, hd0]
  | unreadable ls => exact absurd rfl (hf ls)
  | readable ls =>
    by_cases hse : stripEmpty ls
    · have h0 : ls.count headerRow = 0 :=
        List.count_eq_zero.mpr (stripEmpty_no_header ls hse)
      simp [runHeader, countHeader, should_write_header, linesOf, hse,
        List.count_append, hd0, h0]
    · have hse2 : stripEmpty ls = false := by
        cases hb : stripEmpty ls
        · rfl
        · exact absurd hb hse
      have hsw : should_write_header (FileState.readable ls) = false := by
        simp only [should_write_header]
        exact hse2
      simp [runHeader, countHeader, linesOf, hsw, List.count_append, hd0]
      simpa [countHeader, linesOf] using hc

/-- Helper: the one-header bound is preserved across any sequence of
runs whose bootstrap reads succeed. -/
theorem runSeq_count (runs : List (List String)) :
    ∀ f, (∀ d ∈ runs, headerRow ∉ d) → (∀ ls, f ≠ FileState.unreadable ls) →
    countHeader (linesOf f) ≤ 1 → countHeader (runSeq f runs) ≤ 1 := by
  induction runs with
  | nil => intro f _ _ hc; simpa [runSeq] using hc
  | cons d ds ih =>
    intro f hd hf hc
    simp only [runSeq]
    refine ih (FileState.readable (runHeader f d)) ?_ ?_ ?_
    · intro x hx
      exact hd x (by simp [hx])
    · intro ls hh
      exact FileState.noConfusion hh
    · simpa [linesOf] using count_runHeader_le_one f d (hd d (by simp)) hf hc

/-- C7 (amended): the header is written at run start if and only if the
partition file is absent, empty after stripping whitespace, OR exists
but cannot be read (the bare `except` branch of `should_write_header`);
and across any number of runs on the same partition file, each of whose
bootstrap reads succeeds and whose data rows are not header rows, the
file holds at most one header row. -/
theorem header_once_invariant :
    (∀ f, should_write_header f = true ↔
      (f = FileState.absent ∨ (∃ ls, f = FileState.unreadable ls) ∨
        ∃ ls, f = FileState.readable ls ∧ stripEmpty ls = true)) ∧
    (∀ runs : List (List String), (∀ d ∈ runs, headerRow ∉ d) →
      countHeader (runSeq FileState.absent runs) ≤ 1) := by
  constructor
  · intro f
    cases f with
    | absent => simp [should_write_header]
    | unreadable ls => simp [should_write_header]
    | readable ls => simp [should_write_header]
  · intro runs h
    refine runSeq_count runs FileState.absent h ?_ ?_
    · intro ls hh
      exact FileState.noConfusion hh
    · simp [linesOf, countHeader]

/-- C7 witness: two runs of one data line each against an initially
absent partition file leave exactly one header. -/
theorem header_once_witness :
    countHeader (runSeq FileState.absent [["row one"], ["row two"]]) ≤ 1 :=
  header_once_invariant.2 [["row one"], ["row two"]] (by decide)

/-- C7 counterexample: a partition file that exists with a header but is
unreadable at bootstrap (for example a decoding error) is neither absent
nor empty after stripping, yet `should_write_header` answers `True`, and
the run appends a second header row. -/
theorem header_once_counterexample :
    should_write_header (FileState.unreadable [headerRow]) = true ∧
    FileState.unreadable [headerRow] ≠ FileState.absent ∧
    stripEmpty [headerRow] = false ∧
    countHeader (runHeader (FileState.unreadable [headerRow]) []) = 2 := by
  refine ⟨rfl, by simp, by decide, by decide⟩

/-- C9 (amended): the Link Resolver returns the empty string on any
fetch or decoding failure and when the `(language)wiki` site key is
absent; when the site key is present it returns that entry's `url`
field — which is the Python value `None` (modelled `none`), not a
string, when the field is missing. -/
theorem link_resolver_cases (fetch : Except Unit WbResponse)
    (qid lang : String) :
    (∀ e, fetch = Except.error e → get_wikipedia_link fetch qid lang = some "") ∧
    (∀ resp, fetch = Except.ok resp →
      (((resp.entities.lookup qid).getD
          { sitelinks := [] }).sitelinks.lookup (lang ++ "wiki") = none →
        get_wikipedia_link fetch qid lang = some "") ∧
      (∀ entry, ((resp.entities.lookup qid).getD
          { sitelinks := [] }).sitelinks.lookup (lang ++ "wiki") = some entry →
        get_wikipedia_link fetch qid lang = entry.url)) := by
  constructor
  · intro e he
    rw [he]
    rfl
  · intro resp hr
    constructor
    · intro hn
      rw [hr]
      simp [get_wikipedia_link, hn]
    · intro entry hs
      rw [hr]
      simp [get_wikipedia_link, hs]

/-- C9 witness: a failed fetch yields the empty string. -/
theorem link_resolver_witness :
    get_wikipedia_link (Except.error ()) "Q42" "en" = some "" :=
  (link_resolver_cases (Except.error ()) "Q42" "en").1 () rfl

/-- C9 counterexample: the claim says `resolve_link` always returns a
string, but when the `enwiki` site key is present without a `url` field
the code returns `sitelinks[site_key].get("url")`, which is the Python
value `None` — modelled here as `none`, distinct from every
`some`-string. -/
theorem link_resolver_counterexample :
    get_wikipedia_link (Except.ok respNoUrl) "Q42" "en" = none := by
  decide

/-- C10: rebuilding the Processed-Keyword Set skips the first row of
each partition file unconditionally (`next(reader, None)`), so when the
first row of the matched partition is a data record whose keyword occurs
in no other row, that keyword is absent from the set and the driver
re-processes it instead of skipping it. -/
theorem bootstrap_drops_first_row (r0 : String) (r : List String)
    (rest : List (List String)) (u : Option (List (List String)))
    (hnot : pyStrip r0 ∉ rowKeywords rest ++ processedFromFile u) :
    pyStrip r0 ∉ get_processed_keywords (some ((r0 :: r) :: rest)) u ∧
    (∀ env ms st t, pyStrip r0 ≠ "" →
      rowStep env ms (get_processed_keywords (some ((r0 :: r) :: rest)) u) st
          (r0 :: t) =
        keywordStep env ms st (pyStrip r0)) := by
  have hset : get_processed_keywords (some ((r0 :: r) :: rest)) u =
      rowKeywords rest ++ processedFromFile u := rfl
  refine ⟨by rw [hset]; exact hnot, ?_⟩
  intro env ms st t hne
  rw [hset]
  simp [rowStep, hne, hnot]

/-- C10 witness: a matched partition whose only row is the data record
for "Python" leaves "Python" out of the set, and the driver processes it
again. -/
theorem bootstrap_drops_first_row_witness :
    pyStrip "Python" ∉
      get_processed_keywords (some [["Python", "Q28865"]]) none ∧
    rowStep envTrivial 80
        (get_processed_keywords (some [["Python", "Q28865"]]) none)
        initState ["Python"] =
      keywordStep envTrivial 80 initState (pyStrip "Python") :=
  ⟨(bootstrap_drops_first_row "Python" ["Q28865"] [] none (by decide)).1,
   (bootstrap_drops_first_row "Python" ["Q28865"] [] none (by decide)).2
     envTrivial 80 initState [] (by decide)⟩
